import Mathlib

/-
Verification of the LIDAR point-cloud engine and sensor state management of
the sensor_preview_web repository.

The development shallowly embeds the relevant TypeScript code:

  * LidarSensor.generatePointCloud (scan geometry, spatial target filter,
    per-ray nearest-hit sampling, buffer update),
  * the throttle utility (src/utils/throttle.ts),
  * LidarSensor.dispose and BaseSensor.updatePose / updateVisualization,
  * SensorPanel number-input ingestion,
  * App.updateSensor.

Numbers are embedded as rationals (JS numbers are floats; all claims here are
about exact branch and loop structure, not rounding).  Library primitives of
three.js that compute irrational values (Vector3.distanceTo, per-mesh
triangle intersection) are modelled as explicit parameters or record fields,
as noted at each definition.
-/

namespace SensorPreviewWeb

/-! ## Scan geometry (LidarSensor.generatePointCloud, part_015)

Constants from the source:
`MAX_RAYS_PER_FRAME = 10000`, `MAX_RAYCAST_TARGETS = 500`. -/

def MAX_RAYS_PER_FRAME : ℕ := 10000

def MAX_RAYCAST_TARGETS : ℕ := 500

/-- Embedding of the effective-resolution computation of generatePointCloud:
`baseRayCount = channels * (hFov / angularResH)`; if it exceeds
`MAX_RAYS_PER_FRAME` the step is degraded to `channels * hFov / MAX_RAYS_PER_FRAME`,
otherwise `angularResH` is kept. -/
def effectiveAngularResH (channels : ℕ) (hFov angularResH : ℚ) : ℚ :=
  let baseRayCount : ℚ := channels * (hFov / angularResH)
  if baseRayCount > (MAX_RAYS_PER_FRAME : ℚ) then
    (channels * hFov) / (MAX_RAYS_PER_FRAME : ℚ)
  else
    angularResH

/-- Embedding of the guard of the horizontal scan loop
`for (hAngle = -hFov/2; hAngle < hFov/2; hAngle += step)`:
after k increments the loop variable is `-hFov/2 + k*step` (exact in ℚ), and
the body runs again iff this is still below `hFov/2`. -/
def hLoopCond (hFov step : ℚ) (k : ℕ) : Prop :=
  -(hFov / 2) + k * step < hFov / 2

instance (hFov step : ℚ) (k : ℕ) : Decidable (hLoopCond hFov step k) := by
  unfold hLoopCond; infer_instance

/-- Iteration k of the horizontal loop executes iff the guard held at every
index up to k. -/
def hIterates (hFov step : ℚ) (k : ℕ) : Prop :=
  ∀ j ≤ k, hLoopCond hFov step j

/-- Number of horizontal steps per channel for a positive step: the loop above
runs ⌈hFov / step⌉ times. -/
def hStepsPerChannel (hFov step : ℚ) : ℕ :=
  (⌈hFov / step⌉).toNat

/-- Total rays cast in one scan cycle: channels times horizontal steps per
channel, at the effective angular step. -/
def totalRays (channels : ℕ) (hFov angularResH : ℚ) : ℕ :=
  channels * hStepsPerChannel hFov (effectiveAngularResH channels hFov angularResH)

/-- Embedding of the per-channel vertical angle of generatePointCloud:
channel count 1 scans at 0, otherwise channel ch gets
`-vFov/2 + ch * (vFov / (channels - 1))`. -/
def vAngle (channels : ℕ) (vFov : ℚ) (ch : ℕ) : ℚ :=
  if channels = 1 then 0
  else -(vFov / 2) + ch * (vFov / ((channels : ℚ) - 1))

/-- Ordered list of the vertical angles of one scan cycle, one per channel. -/
def scanVerticalAngles (channels : ℕ) (vFov : ℚ) : List ℚ :=
  (List.range channels).map (vAngle channels vFov)

/-! ## Number-input ingestion (SensorPanel.setupNumberInput)

The change handler parses the field with parseFloat, drops NaN, and passes
every other parsed value to the update callback unmodified.  A NaN parse is
modelled as `none`; any numeric parse as `some v`. -/

/-- Embedding of setupNumberInput: `if (!isNaN(value)) onChange(value)`, with
no clamping of the parsed value. -/
def setupNumberInputChange (parsed : Option ℚ) : Option ℚ :=
  match parsed with
  | none => none
  | some v => some v

/-- Embedding of the angular-resolution field handler: it forwards the parsed
value as the new angularResH, unmodified. -/
def ingestAngularResH (parsed : Option ℚ) : Option ℚ :=
  setupNumberInputChange parsed

/-! ### Basic lemmas on the horizontal loop -/

/-- For a positive step, iteration k executes iff `k < ⌈hFov / step⌉`. -/
theorem hIterates_iff_lt (hFov step : ℚ) (hstep : 0 < step) (k : ℕ) :
    hIterates hFov step k ↔ k < hStepsPerChannel hFov step := by
  unfold hIterates hLoopCond hStepsPerChannel
  constructor
  · intro h
    have hk := h k le_rfl
    have hk2 : (k : ℚ) * step < hFov := by linarith
    have hk3 : (k : ℚ) < hFov / step := (lt_div_iff₀ hstep).mpr hk2
    have hk4 : (k : ℤ) < ⌈hFov / step⌉ := by
      rw [Int.lt_ceil]
      exact_mod_cast hk3
    omega
  · intro h j hj
    have h1 : (j : ℤ) < ⌈hFov / step⌉ := by omega
    have h2 : (j : ℚ) < hFov / step := by
      have := Int.lt_ceil.mp h1
      exact_mod_cast this
    have h3 : (j : ℚ) * step < hFov := (lt_div_iff₀ hstep).mp h2
    linarith

/-- The product of the channel count with the effective rays-per-channel ratio
never exceeds the frame budget (for positive inputs). -/
theorem channels_mul_ratio_le (channels : ℕ) (hFov angularResH : ℚ)
    (hc : 0 < channels) (hh : 0 < hFov) (ha : 0 < angularResH) :
    (channels : ℚ) * (hFov / effectiveAngularResH channels hFov angularResH)
      ≤ (MAX_RAYS_PER_FRAME : ℚ) := by
  have hc0 : (0 : ℚ) < channels := by exact_mod_cast hc
  have hcne : (channels : ℚ) ≠ 0 := ne_of_gt hc0
  have hhne : hFov ≠ 0 := ne_of_gt hh
  have hMne : (MAX_RAYS_PER_FRAME : ℚ) ≠ 0 := by norm_num [MAX_RAYS_PER_FRAME]
  simp only [effectiveAngularResH]
  by_cases hb : (channels : ℚ) * (hFov / angularResH) > (MAX_RAYS_PER_FRAME : ℚ)
  · rw [if_pos hb]
    have heq : (channels : ℚ) *
        (hFov / ((channels : ℚ) * hFov / (MAX_RAYS_PER_FRAME : ℚ)))
        = (MAX_RAYS_PER_FRAME : ℚ) := by
      field_simp
      ring
    exact le_of_eq heq
  · rw [if_neg hb]
    push_neg at hb
    exact hb

/-- The effective angular step is positive whenever the configured inputs are
positive. -/
theorem effectiveAngularResH_pos (channels : ℕ) (hFov angularResH : ℚ)
    (hc : 0 < channels) (hh : 0 < hFov) (ha : 0 < angularResH) :
    0 < effectiveAngularResH channels hFov angularResH := by
  have hc0 : (0 : ℚ) < channels := by exact_mod_cast hc
  have hM : (0 : ℚ) < (MAX_RAYS_PER_FRAME : ℚ) := by norm_num [MAX_RAYS_PER_FRAME]
  simp only [effectiveAngularResH]
  by_cases hb : (channels : ℚ) * (hFov / angularResH) > (MAX_RAYS_PER_FRAME : ℚ)
  · rw [if_pos hb]
    positivity
  · rw [if_neg hb]
    exact ha

/-- C1 counterexample: for channels = 3, hFov = 360, angularResH = 0.1 the
base ray count 10800 exceeds the budget, the degraded step is 0.108 = 27/250,
each channel runs ⌈10000/3⌉ = 3334 horizontal steps, and the cycle casts
3 × 3334 = 10002 rays — strictly more than the 10000-ray budget. -/
theorem lidar_ray_budget_exceeded_ce :
    effectiveAngularResH 3 360 (1/10) = 27/250
    ∧ totalRays 3 360 (1/10) = 10002
    ∧ MAX_RAYS_PER_FRAME < totalRays 3 360 (1/10) := by
  have hceil : ⌈(10000 / 3 : ℚ)⌉ = 3334 := by
    rw [Int.ceil_eq_iff]
    norm_num
  refine ⟨by norm_num [effectiveAngularResH, MAX_RAYS_PER_FRAME], ?_, ?_⟩ <;>
  · norm_num [totalRays, hStepsPerChannel, effectiveAngularResH, MAX_RAYS_PER_FRAME,
      hceil]
    decide

/-- C1 (amended): for every positive configuration, the effective horizontal
step equals angularResH when channels × (hFov/angularResH) ≤ 10000 and
channels × hFov / 10000 otherwise; horizontal-loop iteration k executes iff
k < ⌈hFov / effectiveAngularResH⌉, so each channel runs exactly
⌈hFov / effectiveAngularResH⌉ horizontal steps; and the total ray count of one
scan cycle is below budget + channels (it can exceed the 10000-ray budget by
up to channels − 1 rays, but never by more). -/
theorem lidar_effective_resolution_ray_budget (channels : ℕ)
    (hFov angularResH : ℚ) (hc : 0 < channels) (hh : 0 < hFov)
    (ha : 0 < angularResH) :
    (effectiveAngularResH channels hFov angularResH =
      if (channels : ℚ) * (hFov / angularResH) ≤ (MAX_RAYS_PER_FRAME : ℚ)
      then angularResH
      else ((channels : ℚ) * hFov) / (MAX_RAYS_PER_FRAME : ℚ))
    ∧ (∀ k : ℕ,
        hIterates hFov (effectiveAngularResH channels hFov angularResH) k ↔
        k < hStepsPerChannel hFov (effectiveAngularResH channels hFov angularResH))
    ∧ totalRays channels hFov angularResH < MAX_RAYS_PER_FRAME + channels := by
  have hc0 : (0 : ℚ) < channels := by exact_mod_cast hc
  have he : 0 < effectiveAngularResH channels hFov angularResH :=
    effectiveAngularResH_pos channels hFov angularResH hc hh ha
  refine ⟨?_, fun k => hIterates_iff_lt _ _ he k, ?_⟩
  · simp only [effectiveAngularResH]
    by_cases hb :
        (channels : ℚ) * (hFov / angularResH) > (MAX_RAYS_PER_FRAME : ℚ)
    · rw [if_pos hb, if_neg (not_le.mpr hb)]
    · rw [if_neg hb, if_pos (not_lt.mp hb)]
  · have hq : 0 < hFov / effectiveAngularResH channels hFov angularResH :=
      div_pos hh he
    have hceil : 0 < ⌈hFov / effectiveAngularResH channels hFov angularResH⌉ :=
      Int.ceil_pos.mpr hq
    have h1 : (⌈hFov / effectiveAngularResH channels hFov angularResH⌉ : ℚ)
        < hFov / effectiveAngularResH channels hFov angularResH + 1 :=
      Int.ceil_lt_add_one _
    have h2 := channels_mul_ratio_le channels hFov angularResH hc hh ha
    have h4 : (totalRays channels hFov angularResH : ℚ)
        = (channels : ℚ) *
          ((⌈hFov / effectiveAngularResH channels hFov angularResH⌉ : ℤ) : ℚ) := by
      unfold totalRays hStepsPerChannel
      rw [Nat.cast_mul]
      congr 1
      exact_mod_cast Int.toNat_of_nonneg (le_of_lt hceil)
    have h5 : (totalRays channels hFov angularResH : ℚ)
        < (MAX_RAYS_PER_FRAME : ℚ) + (channels : ℚ) := by
      rw [h4]
      have h6 : (channels : ℚ) *
          ((⌈hFov / effectiveAngularResH channels hFov angularResH⌉ : ℤ) : ℚ)
          < (channels : ℚ) *
            (hFov / effectiveAngularResH channels hFov angularResH + 1) :=
        mul_lt_mul_of_pos_left h1 hc0
      nlinarith
    have h7 : (totalRays channels hFov angularResH : ℚ)
        < ((MAX_RAYS_PER_FRAME + channels : ℕ) : ℚ) := by
      push_cast
      linarith
    exact_mod_cast h7

/-- Witness for lidar_effective_resolution_ray_budget at channels = 16,
hFov = 360, angularResH = 1. -/
theorem lidar_effective_resolution_ray_budget_witness :
    0 < 16 ∧ (0 : ℚ) < 360 ∧ (0 : ℚ) < 1
    ∧ totalRays 16 360 1 < MAX_RAYS_PER_FRAME + 16 := by
  refine ⟨by decide, by norm_num, by norm_num, ?_⟩
  exact (lidar_effective_resolution_ray_budget 16 360 1 (by decide) (by norm_num)
    (by norm_num)).2.2

/-! ## Vertical channel angles (C2) -/

/-- C2 counterexample: with channels = 2 and vFov = 0 the scan uses two
channels but only one vertical angle — both channels scan at 0, so the N
angles are not distinct. -/
theorem lidar_vertical_angles_ce :
    scanVerticalAngles 2 0 = [0, 0]
    ∧ (scanVerticalAngles 2 0).length = 2
    ∧ ¬ (scanVerticalAngles 2 0).Nodup := by
  have h : scanVerticalAngles 2 0 = [0, 0] := by
    norm_num [scanVerticalAngles, vAngle, List.range_succ]
  refine ⟨h, by rw [h]; rfl, by rw [h]; simp⟩

/-- C2 (amended): for channels = N ≥ 2 and vFov > 0, one scan cycle uses
exactly N pairwise-distinct vertical angles, the angle of channel c being
−vFov/2 + c·(vFov/(N−1)); all angles lie in [−vFov/2, vFov/2] and both
endpoints are attained; for channels = 1 exactly one vertical angle is used
and it equals 0. -/
theorem lidar_vertical_angles_span (N : ℕ) (vFov : ℚ) (hN : 2 ≤ N)
    (hv : 0 < vFov) :
    (scanVerticalAngles N vFov).length = N
    ∧ (scanVerticalAngles N vFov).Nodup
    ∧ (∀ c, c < N → vAngle N vFov c = -(vFov / 2) + c * (vFov / ((N : ℚ) - 1)))
    ∧ (∀ a ∈ scanVerticalAngles N vFov, -(vFov / 2) ≤ a ∧ a ≤ vFov / 2)
    ∧ -(vFov / 2) ∈ scanVerticalAngles N vFov
    ∧ vFov / 2 ∈ scanVerticalAngles N vFov
    ∧ (∀ w : ℚ, scanVerticalAngles 1 w = [0]) := by
  have hne1 : N ≠ 1 := by omega
  have hN1 : (1 : ℚ) ≤ (N : ℚ) - 1 := by
    have : (2 : ℚ) ≤ (N : ℚ) := by exact_mod_cast hN
    linarith
  have hd : 0 < vFov / ((N : ℚ) - 1) := div_pos hv (by linarith)
  have hcast : (((N - 1 : ℕ) : ℚ)) = (N : ℚ) - 1 := by
    have : 1 ≤ N := by omega
    push_cast [Nat.cast_sub this]
    ring
  have hne0 : (N : ℚ) - 1 ≠ 0 := by linarith
  have hlast : vAngle N vFov (N - 1) = vFov / 2 := by
    simp only [vAngle, hne1, if_neg, ite_false]
    rw [hcast]
    field_simp
    ring
  refine ⟨by simp [scanVerticalAngles], ?_, ?_, ?_, ?_, ?_, ?_⟩
  · refine List.Nodup.map ?_ (List.nodup_range N)
    intro a b hab
    simp only [vAngle, hne1, ite_false] at hab
    have hab2 : (a : ℚ) * (vFov / ((N : ℚ) - 1)) = b * (vFov / ((N : ℚ) - 1)) := by
      linarith
    have := mul_right_cancel₀ (ne_of_gt hd) hab2
    exact_mod_cast this
  · intro c _
    simp [vAngle, hne1]
  · intro a ha
    simp only [scanVerticalAngles, List.mem_map, List.mem_range] at ha
    obtain ⟨c, hc, rfl⟩ := ha
    simp only [vAngle, hne1, ite_false]
    constructor
    · have h0 : (0 : ℚ) ≤ (c : ℚ) * (vFov / ((N : ℚ) - 1)) := by positivity
      linarith
    · have hcle : (c : ℚ) ≤ (N : ℚ) - 1 := by
        have : (c : ℚ) + 1 ≤ (N : ℚ) := by exact_mod_cast hc
        linarith
      have h1 : (c : ℚ) * (vFov / ((N : ℚ) - 1))
          ≤ ((N : ℚ) - 1) * (vFov / ((N : ℚ) - 1)) :=
        mul_le_mul_of_nonneg_right hcle (le_of_lt hd)
      have h2 : ((N : ℚ) - 1) * (vFov / ((N : ℚ) - 1)) = vFov := by
        field_simp
      linarith
  · refine List.mem_map.mpr ⟨0, List.mem_range.mpr (by omega), ?_⟩
    simp [vAngle, hne1]
  · refine List.mem_map.mpr ⟨N - 1, List.mem_range.mpr (by omega), hlast⟩
  · intro w
    rfl

/-- Witness for lidar_vertical_angles_span at N = 16, vFov = 30. -/
theorem lidar_vertical_angles_span_witness :
    2 ≤ 16 ∧ (0 : ℚ) < 30 ∧ (scanVerticalAngles 16 30).Nodup := by
  refine ⟨by decide, by norm_num, ?_⟩
  exact (lidar_vertical_angles_span 16 30 (by decide) (by norm_num)).2.1

/-! ## Invalid-configuration ingestion (C8) -/

/-- C8: the number-field ingestion performs no clamping — a typed
angularResH of −1 is forwarded unchanged — and with channels = 1, hFov = 360
the effective step stays −1, for which the horizontal scan loop guard
−hFov/2 + k·step < hFov/2 holds at every k, so generatePointCloud never
terminates (every loop iteration executes). -/
theorem config_ingestion_no_clamp_nonterminating :
    ingestAngularResH (some (-1)) = some (-1)
    ∧ effectiveAngularResH 1 360 (-1) = -1
    ∧ ∀ k : ℕ, hIterates 360 (-1) k := by
  refine ⟨rfl, by norm_num [effectiveAngularResH, MAX_RAYS_PER_FRAME], ?_⟩
  intro k j hj
  unfold hLoopCond
  have hj0 : (0 : ℚ) ≤ (j : ℚ) := Nat.cast_nonneg j
  nlinarith

/-! ## Spatial target filter and per-ray sampling
(LidarSensor.generatePointCloud, part_015)

The scene model: a scenario object (THREE.Object3D) has a name and, via
traverse, a collection of Mesh descendants.  Each mesh carries its world
position (getWorldPosition), its bounding-sphere center in world space and
bounding radius (geometry.boundingSphere), and its ray-intersection behavior.
Since per-triangle intersection distances and Vector3.distanceTo are
irrational-valued library primitives of three.js, the mesh records its
intersection distances as a field and the filter takes the distance metric as
a parameter; every theorem below holds for all instantiations, and concrete
inputs of witnesses are axis-aligned so the intended Euclidean metric
coincides with the computable one supplied. -/

structure Vec3 where
  x : ℚ
  y : ℚ
  z : ℚ
deriving DecidableEq

/-- Ray with origin and direction, as set on THREE.Raycaster. -/
structure Ray where
  origin : Vec3
  dir : Vec3
deriving DecidableEq

/-- Mesh as seen by generatePointCloud.  rayHitDistances models the distances
returned by the three.js raycaster for this single mesh, before the near/far
window is applied. -/
structure Mesh where
  worldPos : Vec3
  boundingSphereCenter : Vec3
  boundingRadius : ℚ
  rayHitDistances : Ray → List ℚ

/-- Scenario object: name plus all Mesh descendants found by traverse. -/
structure SceneNode where
  name : String
  meshes : List Mesh

/-- Kernel-computable specialization of String.startsWith: a string starts
with pre iff its character list has the character list of pre as a prefix. -/
def nameStartsWith (s pre : String) : Bool :=
  pre.data.isPrefixOf s.data

/-- Embedding of the two name-prefix exclusions of generatePointCloud:
sensor groups and lidar point clouds are skipped. -/
def isExcludedNode (o : SceneNode) : Bool :=
  nameStartsWith o.name "sensor-" || nameStartsWith o.name "lidar-pointcloud-"

/-- Embedding of the mesh-collection loop of generatePointCloud: every
non-excluded scenario object contributes its meshes, paired with the distance
from the sensor world position to the mesh world position, kept when
distance − boundingRadius ≤ maxRange × 1.5. -/
def collectMeshesWithDistance (dist : Vec3 → Vec3 → ℚ)
    (sensorWorldPosition : Vec3) (maxRange : ℚ)
    (scenarioObjects : List SceneNode) : List (Mesh × ℚ) :=
  (scenarioObjects.filter (fun o => ! isExcludedNode o)).flatMap
    (fun o =>
      (o.meshes.map (fun m => (m, dist sensorWorldPosition m.worldPos))).filter
        (fun p => decide (p.2 - p.1.boundingRadius ≤ maxRange * 1.5)))

/-- Embedding of `meshesWithDistance.sort((a, b) => a.distance - b.distance)`:
the retained meshes sorted ascending by their recorded distance (JS
Array.prototype.sort is stable, as is mergeSort). -/
def sortedCandidates (dist : Vec3 → Vec3 → ℚ) (sensorWorldPosition : Vec3)
    (maxRange : ℚ) (scenarioObjects : List SceneNode) : List (Mesh × ℚ) :=
  (collectMeshesWithDistance dist sensorWorldPosition maxRange
    scenarioObjects).mergeSort (fun a b => decide (a.2 ≤ b.2))

/-- Embedding of `.slice(0, MAX_RAYCAST_TARGETS).map(m => m.mesh)`. -/
def raycastTargets (dist : Vec3 → Vec3 → ℚ) (sensorWorldPosition : Vec3)
    (maxRange : ℚ) (scenarioObjects : List SceneNode) : List Mesh :=
  ((sortedCandidates dist sensorWorldPosition maxRange
    scenarioObjects).take MAX_RAYCAST_TARGETS).map Prod.fst

/-- Embedding of `raycaster.intersectObjects(raycastTargets, false)` with
`raycaster.near = near` and `raycaster.far = far`: each target mesh reports
its intersection distances, those within [near, far] are kept, and the
combined list is sorted ascending by distance (the three.js raycaster sorts
its result). -/
def raycastIntersections (targets : List Mesh) (r : Ray) (near far : ℚ) :
    List ℚ :=
  (targets.flatMap
    (fun m => (m.rayHitDistances r).filter
      (fun d => decide (near ≤ d) && decide (d ≤ far)))).mergeSort
    (fun a b => decide (a ≤ b))

/-- Embedding of the per-ray sampling of generatePointCloud: if
`intersects.length > 0` the single emitted sample is `intersects[0]`, the
nearest hit; otherwise no sample is emitted. -/
def raySampleDistance (targets : List Mesh) (r : Ray) (near far : ℚ) :
    Option ℚ :=
  (raycastIntersections targets r near far).head?

/-- Subset of LidarSensorConfig read by generatePointCloud. -/
structure LidarConfig where
  enabled : Bool
  showPointCloud : Bool
  channels : ℕ
  hFov : ℚ
  vFov : ℚ
  angularResH : ℚ
  minRange : ℚ
  maxRange : ℚ
deriving DecidableEq

/-- Embedding of the buffer effect of one generatePointCloud run.  The
disabled branch clears the buffer; the empty-candidate branch returns early,
leaving the previous buffer in place; otherwise the buffer is replaced by the
samples of the ray loop over the raycast targets.  The ray loop itself
(castRays) is kept as a parameter here because its direction vectors involve
trigonometry; the branch structure around it is what these theorems are
about. -/
def generatePointCloudBuffer (dist : Vec3 → Vec3 → ℚ) (cfg : LidarConfig)
    (sensorWorldPosition : Vec3) (scenarioObjects : List SceneNode)
    (castRays : List Mesh → List Vec3) (oldBuffer : List Vec3) : List Vec3 :=
  if ! cfg.enabled || ! cfg.showPointCloud then []
  else
    let meshesWithDistance := collectMeshesWithDistance dist
      sensorWorldPosition cfg.maxRange scenarioObjects
    if meshesWithDistance.isEmpty then oldBuffer
    else castRays
      ((meshesWithDistance.mergeSort (fun a b => decide (a.2 ≤ b.2))).take
        MAX_RAYCAST_TARGETS |>.map Prod.fst)

/-! ### Per-ray nearest-hit sampling (C3) -/

/-- Characterization of membership in the raycaster result: the distances in
[near, far] reported by some target mesh. -/
theorem mem_raycastIntersections_iff (targets : List Mesh) (r : Ray)
    (near far x : ℚ) :
    x ∈ raycastIntersections targets r near far ↔
      ∃ m ∈ targets, x ∈ m.rayHitDistances r ∧ near ≤ x ∧ x ≤ far := by
  unfold raycastIntersections
  rw [(List.mergeSort_perm _ _).mem_iff]
  simp [List.mem_flatMap, List.mem_filter, and_assoc]

/-- Sortedness of the raycaster result. -/
theorem raycastIntersections_sorted (targets : List Mesh) (r : Ray)
    (near far : ℚ) :
    List.Sorted (fun a b : ℚ => a ≤ b)
      (raycastIntersections targets r near far) := by
  unfold raycastIntersections
  have hs : List.Pairwise (fun a b : ℚ => (decide (a ≤ b)) = true)
      ((targets.flatMap
        (fun m => (m.rayHitDistances r).filter
          (fun d => decide (near ≤ d) && decide (d ≤ far)))).mergeSort
        (fun a b => decide (a ≤ b))) := by
    apply List.sorted_mergeSort
    · intro a b c h1 h2
      simp only [decide_eq_true_eq] at *
      exact le_trans h1 h2
    · intro a b
      simp [le_total]
  exact hs.imp (fun h => of_decide_eq_true h)

/-- C3: a point-cloud sample is emitted for a ray iff some candidate mesh
reports an intersection with distance inside [near, far]; when a sample is
emitted it is a reported in-window intersection distance and is minimal among
all of them (the nearest hit); a ray with no in-window hit contributes no
sample. -/
theorem lidar_ray_nearest_hit_sample (targets : List Mesh) (r : Ray)
    (near far : ℚ) :
    ((raySampleDistance targets r near far).isSome ↔
      ∃ m ∈ targets, ∃ d ∈ m.rayHitDistances r, near ≤ d ∧ d ≤ far)
    ∧ ∀ d, raySampleDistance targets r near far = some d →
        (∃ m ∈ targets, d ∈ m.rayHitDistances r ∧ near ≤ d ∧ d ≤ far)
        ∧ ∀ m' ∈ targets, ∀ d' ∈ m'.rayHitDistances r,
            near ≤ d' → d' ≤ far → d ≤ d' := by
  constructor
  · constructor
    · intro h
      rcases hl : raycastIntersections targets r near far with _ | ⟨a, tl⟩
      · rw [raySampleDistance, hl] at h
        simp at h
      · have ha : a ∈ raycastIntersections targets r near far := by
          rw [hl]; exact List.mem_cons_self a tl
        rw [mem_raycastIntersections_iff] at ha
        obtain ⟨m, hm, hd, h1, h2⟩ := ha
        exact ⟨m, hm, a, hd, h1, h2⟩
    · rintro ⟨m, hm, d, hd, h1, h2⟩
      have hmem : d ∈ raycastIntersections targets r near far :=
        (mem_raycastIntersections_iff targets r near far d).mpr
          ⟨m, hm, hd, h1, h2⟩
      rcases hl : raycastIntersections targets r near far with _ | ⟨a, tl⟩
      · rw [hl] at hmem
        simp at hmem
      · rw [raySampleDistance, hl]
        simp
  · intro d hd
    rcases hl : raycastIntersections targets r near far with _ | ⟨a, tl⟩
    · rw [raySampleDistance, hl] at hd
      simp at hd
    · rw [raySampleDistance, hl] at hd
      simp only [List.head?_cons, Option.some.injEq] at hd
      subst hd
      have hsorted := raycastIntersections_sorted targets r near far
      rw [hl] at hsorted
      have hmin : ∀ x ∈ raycastIntersections targets r near far, a ≤ x := by
        intro x hx
        rw [hl] at hx
        rcases List.mem_cons.mp hx with h | h
        · exact le_of_eq h.symm
        · exact List.rel_of_sorted_cons hsorted x h
      constructor
      · have hdmem : a ∈ raycastIntersections targets r near far := by
          rw [hl]; exact List.mem_cons_self a tl
        rw [mem_raycastIntersections_iff] at hdmem
        exact hdmem
      · intro m' hm' d' hd' h1 h2
        exact hmin d' ((mem_raycastIntersections_iff targets r near far d').mpr
          ⟨m', hm', hd', h1, h2⟩)

/-- Concrete mesh used by the C3 witness: reports hits at distances 5 and 7
for every ray. -/
def meshTwoHits : Mesh :=
  { worldPos := ⟨0, 0, 0⟩
    boundingSphereCenter := ⟨0, 0, 0⟩
    boundingRadius := 1
    rayHitDistances := fun _ => [5, 7] }

/-- Concrete ray used by the C3 witness. -/
def rayForward : Ray :=
  { origin := ⟨0, 0, 0⟩, dir := ⟨1, 0, 0⟩ }

/-- Witness for lidar_ray_nearest_hit_sample: with one target reporting hits
at 5 and 7 and window [1, 10], a sample is emitted. -/
theorem lidar_ray_nearest_hit_sample_witness :
    (raySampleDistance [meshTwoHits] rayForward 1 10).isSome :=
  (lidar_ray_nearest_hit_sample [meshTwoHits] rayForward 1 10).1.mpr
    ⟨meshTwoHits, by simp, 5, by simp [meshTwoHits], by norm_num, by norm_num⟩

/-! ### Spatial target filter (C4) -/

/-- Membership characterization of the candidate list: a mesh/distance pair is
collected iff it comes from a non-excluded scenario object, the distance is
the recorded sensor-to-mesh-world-position distance, and the margin test
passes. -/
theorem mem_collectMeshesWithDistance_iff (dist : Vec3 → Vec3 → ℚ)
    (pos : Vec3) (maxRange : ℚ) (objs : List SceneNode) (m : Mesh) (d : ℚ) :
    (m, d) ∈ collectMeshesWithDistance dist pos maxRange objs ↔
      ∃ o ∈ objs, isExcludedNode o = false ∧ m ∈ o.meshes ∧
        d = dist pos m.worldPos ∧ d - m.boundingRadius ≤ maxRange * 1.5 := by
  unfold collectMeshesWithDistance
  simp only [List.mem_flatMap, List.mem_filter, List.mem_map,
    Bool.not_eq_true', decide_eq_true_eq]
  constructor
  · rintro ⟨o, ⟨ho, hex⟩, ⟨⟨m', hm', heq⟩, hcond⟩⟩
    have hm : m' = m := congrArg Prod.fst heq
    have hd : dist pos m'.worldPos = d := congrArg Prod.snd heq
    subst hm
    exact ⟨o, ho, hex, hm', hd.symm, hcond⟩
  · rintro ⟨o, ho, hex, hm, hd, hcond⟩
    exact ⟨o, ⟨ho, hex⟩, ⟨⟨m, hm, by rw [hd]⟩, hcond⟩⟩

/-- Membership in the sorted candidate list coincides with membership in the
collected list. -/
theorem mem_sortedCandidates_iff (dist : Vec3 → Vec3 → ℚ) (pos : Vec3)
    (maxRange : ℚ) (objs : List SceneNode) (m : Mesh) (d : ℚ) :
    (m, d) ∈ sortedCandidates dist pos maxRange objs ↔
      ∃ o ∈ objs, isExcludedNode o = false ∧ m ∈ o.meshes ∧
        d = dist pos m.worldPos ∧ d - m.boundingRadius ≤ maxRange * 1.5 := by
  unfold sortedCandidates
  rw [(List.mergeSort_perm _ _).mem_iff]
  exact mem_collectMeshesWithDistance_iff dist pos maxRange objs m d

/-- The sorted candidate list is sorted ascending by recorded distance. -/
theorem sortedCandidates_sorted (dist : Vec3 → Vec3 → ℚ) (pos : Vec3)
    (maxRange : ℚ) (objs : List SceneNode) :
    List.Sorted (fun a b : Mesh × ℚ => a.2 ≤ b.2)
      (sortedCandidates dist pos maxRange objs) := by
  unfold sortedCandidates
  have hs : List.Pairwise (fun a b : Mesh × ℚ => (decide (a.2 ≤ b.2)) = true)
      ((collectMeshesWithDistance dist pos maxRange objs).mergeSort
        (fun a b => decide (a.2 ≤ b.2))) := by
    apply List.sorted_mergeSort
    · intro a b c h1 h2
      simp only [decide_eq_true_eq] at *
      exact le_trans h1 h2
    · intro a b
      simp [le_total]
  exact hs.imp (fun h => of_decide_eq_true h)

/-- C4 (amended): the candidate-surface set excludes objects in
sensor-visualization groups and rendered point clouds, retains exactly the
meshes whose distance from the sensor position to the MESH WORLD POSITION
(the object origin, as computed by getWorldPosition — not the bounding-sphere
center) minus boundingRadius is at most maxRange × 1.5, sorts the retained
meshes ascending by that distance, and truncates to the 500 nearest (every
kept distance is at most every dropped distance). -/
theorem target_filter_characterization (dist : Vec3 → Vec3 → ℚ) (pos : Vec3)
    (maxRange : ℚ) (objs : List SceneNode) :
    (∀ m d, (m, d) ∈ sortedCandidates dist pos maxRange objs ↔
      ∃ o ∈ objs, isExcludedNode o = false ∧ m ∈ o.meshes ∧
        d = dist pos m.worldPos ∧ d - m.boundingRadius ≤ maxRange * 1.5)
    ∧ List.Sorted (fun a b : Mesh × ℚ => a.2 ≤ b.2)
        (sortedCandidates dist pos maxRange objs)
    ∧ raycastTargets dist pos maxRange objs =
        ((sortedCandidates dist pos maxRange objs).take
          MAX_RAYCAST_TARGETS).map Prod.fst
    ∧ (raycastTargets dist pos maxRange objs).length ≤ MAX_RAYCAST_TARGETS
    ∧ ∀ p ∈ (sortedCandidates dist pos maxRange objs).take MAX_RAYCAST_TARGETS,
        ∀ q ∈ (sortedCandidates dist pos maxRange objs).drop MAX_RAYCAST_TARGETS,
          p.2 ≤ q.2 := by
  refine ⟨mem_sortedCandidates_iff dist pos maxRange objs,
    sortedCandidates_sorted dist pos maxRange objs, rfl, ?_, ?_⟩
  · rw [raycastTargets, List.length_map, List.length_take]
    exact min_le_left _ _
  · have h := sortedCandidates_sorted dist pos maxRange objs
    have h2 := h
    rw [← List.take_append_drop MAX_RAYCAST_TARGETS
      (sortedCandidates dist pos maxRange objs)] at h2
    exact (List.pairwise_append.mp h2).2.2

/-- Computable stand-in for the Euclidean Vector3.distanceTo: the L1 distance,
which agrees with the Euclidean distance on the axis-aligned concrete inputs
used below (all coordinate differences are on a single axis). -/
def distL1 (a b : Vec3) : ℚ :=
  |a.x - b.x| + |a.y - b.y| + |a.z - b.z|

/-- Concrete mesh whose object origin is far from its geometry: world
position at x = 100 but bounding-sphere center at x = 2 with radius 1. -/
def meshFarOrigin : Mesh :=
  { worldPos := ⟨100, 0, 0⟩
    boundingSphereCenter := ⟨2, 0, 0⟩
    boundingRadius := 1
    rayHitDistances := fun _ => [] }

/-- Concrete non-excluded scenario object holding meshFarOrigin. -/
def nodeFarOrigin : SceneNode :=
  { name := "box", meshes := [meshFarOrigin] }

/-- The far-origin scene yields an empty candidate list for maxRange = 10:
the code-measured distance is 100 and 100 − 1 > 15. -/
theorem collect_nodeFarOrigin_eq_nil :
    collectMeshesWithDistance distL1 ⟨0, 0, 0⟩ 10 [nodeFarOrigin] = [] := by
  rw [List.eq_nil_iff_forall_not_mem]
  rintro ⟨m, d⟩ hm
  rw [mem_collectMeshesWithDistance_iff] at hm
  obtain ⟨o, ho, _, hmesh, hd, hcond⟩ := hm
  rw [List.mem_singleton] at ho
  subst ho
  rw [nodeFarOrigin] at hmesh
  rw [List.mem_singleton] at hmesh
  subst hmesh
  rw [hd] at hcond
  norm_num [distL1, meshFarOrigin] at hcond

/-- C4 counterexample: with the sensor at the origin and maxRange = 10, the
mesh whose bounding-sphere center is at distance 2 (radius 1) satisfies the
claimed retention test (2 − 1 ≤ 15), yet the code culls it because it
measures the distance to the mesh world position (100 − 1 > 15): the
candidate list comes out empty. -/
theorem target_filter_world_position_ce :
    distL1 ⟨0, 0, 0⟩ meshFarOrigin.boundingSphereCenter
        - meshFarOrigin.boundingRadius ≤ (10 : ℚ) * 1.5
    ∧ collectMeshesWithDistance distL1 ⟨0, 0, 0⟩ 10 [nodeFarOrigin] = []
    ∧ raycastTargets distL1 ⟨0, 0, 0⟩ 10 [nodeFarOrigin] = [] := by
  refine ⟨by norm_num [distL1, meshFarOrigin], collect_nodeFarOrigin_eq_nil, ?_⟩
  rw [raycastTargets, sortedCandidates, collect_nodeFarOrigin_eq_nil]
  simp [List.mergeSort_nil]

/-- Concrete in-range mesh for the C4 witness. -/
def meshNear : Mesh :=
  { worldPos := ⟨3, 0, 0⟩
    boundingSphereCenter := ⟨3, 0, 0⟩
    boundingRadius := 1
    rayHitDistances := fun _ => [3] }

/-- Concrete non-excluded scenario object holding meshNear. -/
def nodeNear : SceneNode :=
  { name := "box", meshes := [meshNear] }

/-- Witness for target_filter_characterization: the in-range mesh at distance
3 is collected for maxRange = 10. -/
theorem target_filter_characterization_witness :
    (meshNear, (3 : ℚ)) ∈ sortedCandidates distL1 ⟨0, 0, 0⟩ 10 [nodeNear] :=
  ((target_filter_characterization distL1 ⟨0, 0, 0⟩ 10 [nodeNear]).1
    meshNear 3).mpr
    ⟨nodeNear, by simp, by decide, by simp [nodeNear],
      by norm_num [distL1, meshNear], by norm_num [meshNear]⟩

/-! ### Empty candidate set and the point-cloud buffer (C7) -/

/-- Enabled LIDAR configuration with visible point cloud, maxRange = 10. -/
def cfgEnabled : LidarConfig :=
  { enabled := true
    showPointCloud := true
    channels := 16
    hFov := 360
    vFov := 30
    angularResH := 1/10
    minRange := 1/10
    maxRange := 10 }

/-- C7: when the filtered candidate list is empty, generatePointCloud returns
before touching the geometry buffers, so a previously displayed sample stays
in the point-cloud buffer — the buffer does NOT contain zero samples
afterwards.  Concretely: the far-origin scene yields an empty candidate list,
and a run starting from a buffer holding one sample leaves that sample in
place.  No error is raised (the embedding is a total function). -/
theorem pointcloud_empty_candidates_stale_buffer :
    collectMeshesWithDistance distL1 ⟨0, 0, 0⟩ cfgEnabled.maxRange
        [nodeFarOrigin] = []
    ∧ generatePointCloudBuffer distL1 cfgEnabled ⟨0, 0, 0⟩ [nodeFarOrigin]
        (fun _ => []) [⟨1, 2, 3⟩] = [⟨1, 2, 3⟩]
    ∧ ([(⟨1, 2, 3⟩ : Vec3)] : List Vec3) ≠ [] := by
  have hmax : cfgEnabled.maxRange = 10 := rfl
  refine ⟨by rw [hmax]; exact collect_nodeFarOrigin_eq_nil, ?_, by simp⟩
  rw [generatePointCloudBuffer]
  simp [cfgEnabled, collect_nodeFarOrigin_eq_nil]

/-! ## Throttle utility (src/utils/throttle.ts)

State of one throttled function: lastCall (ms timestamp of the last
execution, initially 0), timeoutId (modelled as the absolute scheduled fire
time of the pending setTimeout, none when no timer is pending), and lastArgs
(the arguments of the most recent call).  Time is an integer millisecond
clock; timers fire exactly at their scheduled time (synthetic clock), before
any call arriving at the same or a later instant. -/

structure ThrottleState (α : Type) where
  lastCall : ℤ
  timeoutId : Option ℤ
  lastArgs : Option α
deriving DecidableEq

/-- Embedding of the body of the throttled wrapper: store the latest args;
if at least delay elapsed since lastCall, execute immediately (returned as
some (now, args)); otherwise, if no timer is pending, schedule one at
now + (delay − timeSinceLastCall). -/
def trigger {α : Type} (delay now : ℤ) (args : α) (s : ThrottleState α) :
    ThrottleState α × Option (ℤ × α) :=
  let timeSinceLastCall := now - s.lastCall
  let s1 : ThrottleState α := { s with lastArgs := some args }
  if delay ≤ timeSinceLastCall then
    ({ s1 with lastCall := now }, some (now, args))
  else
    match s1.timeoutId with
    | none =>
        ({ s1 with timeoutId := some (now + (delay - timeSinceLastCall)) },
         none)
    | some _ => (s1, none)

/-- Embedding of the setTimeout callback: set lastCall to the fire time,
clear the timer, and execute with lastArgs when present. -/
def timerFire {α : Type} (t : ℤ) (s : ThrottleState α) :
    ThrottleState α × Option (ℤ × α) :=
  ({ s with lastCall := t, timeoutId := none },
   s.lastArgs.map (fun a => (t, a)))

/-- Driver for a timeline of calls (time, args) with nondecreasing times:
before a call is processed, a pending timer whose scheduled time has been
reached fires; after the last call, a pending timer fires at its scheduled
time.  Returns the ordered list of actual executions (time, args). -/
def runThrottle {α : Type} (delay : ℤ) :
    ThrottleState α → List (ℤ × α) → List (ℤ × α)
  | s, [] =>
    match s.timeoutId with
    | some t => (timerFire t s).2.toList
    | none => []
  | s, (now, a) :: rest =>
    match s.timeoutId with
    | some t =>
      if t ≤ now then
        let f := timerFire t s
        let tr := trigger delay now a f.1
        f.2.toList ++ (tr.2.toList ++ runThrottle delay tr.1 rest)
      else
        let tr := trigger delay now a s
        tr.2.toList ++ runThrottle delay tr.1 rest
    | none =>
      let tr := trigger delay now a s
      tr.2.toList ++ runThrottle delay tr.1 rest

/-- Immediate execution: a call arriving at least delay after the last
execution runs at once with its own arguments, and records the execution
time. -/
theorem trigger_immediate {α : Type} (delay now : ℤ) (a : α)
    (s : ThrottleState α) (h : delay ≤ now - s.lastCall) :
    (trigger delay now a s).2 = some (now, a)
    ∧ (trigger delay now a s).1.lastCall = now := by
  unfold trigger
  simp [if_pos h]

/-- With a timer pending at T0 + delay and every further call arriving before
that boundary, the run produces exactly one execution, at the boundary, with
the most recent arguments. -/
theorem runThrottle_pending {α : Type} (delay T0 : ℤ) (a0 : α)
    (ts : List (ℤ × α)) (hts : ∀ p ∈ ts, p.1 < T0 + delay) :
    runThrottle delay ⟨T0, some (T0 + delay), some a0⟩ ts
      = [(T0 + delay, (ts.map Prod.snd).getLastD a0)] := by
  induction ts generalizing a0 with
  | nil =>
    simp [runThrottle, timerFire]
  | cons p rest ih =>
    obtain ⟨now, a⟩ := p
    have hnow : now < T0 + delay := hts (now, a) (List.mem_cons_self _ _)
    have hc1 : ¬ (T0 + delay ≤ now) := not_le.mpr hnow
    have hc2 : ¬ (delay ≤ now - T0) := by omega
    simp only [runThrottle]
    rw [if_neg hc1]
    simp only [trigger]
    rw [if_neg hc2]
    simp only [List.nil_append]
    rw [ih a (fun p hp => hts p (List.mem_cons_of_mem _ hp))]
    simp only [Option.toList_none, List.nil_append, List.map_cons,
      List.getLastD_cons]

/-- Trailing-edge guarantee: from an idle state (no pending timer, last
execution at T0), a burst of calls all arriving within delay of T0 produces
exactly one execution, at T0 + delay, with the arguments of the last call. -/
theorem runThrottle_trailing {α : Type} (delay T0 : ℤ) (la : Option α)
    (t0 : ℤ) (a0 : α) (rest : List (ℤ × α))
    (hts : ∀ p ∈ (t0, a0) :: rest, p.1 - T0 < delay) :
    runThrottle delay ⟨T0, none, la⟩ ((t0, a0) :: rest)
      = [(T0 + delay, (rest.map Prod.snd).getLastD a0)] := by
  have h0 : t0 - T0 < delay := hts (t0, a0) (List.mem_cons_self _ _)
  have hc2 : ¬ (delay ≤ t0 - T0) := not_le.mpr h0
  simp only [runThrottle]
  simp only [trigger]
  rw [if_neg hc2]
  have harith : t0 + (delay - (t0 - T0)) = T0 + delay := by ring
  simp only [List.nil_append, harith]
  rw [runThrottle_pending delay T0 a0 rest
    (fun p hp => by have := hts p (List.mem_cons_of_mem _ hp); omega)]
  rfl

/-- Chain construction from a head-dominating bound. -/
theorem chain'_cons_of_forall {β : Type} {r : β → β → Prop} (a : β)
    {l : List β} (h : ∀ b ∈ l, r a b) (hl : List.Chain' r l) :
    List.Chain' r (a :: l) := by
  rw [List.chain'_cons']
  exact ⟨fun b hb => h b (List.mem_of_mem_head? hb), hl⟩


/-- Rate limit: starting from a consistent state (any pending timer is
scheduled exactly delay after the last execution) and a nondecreasing call
timeline, consecutive executions are at least delay apart, and every
execution happens no earlier than delay after the starting lastCall. -/
theorem runThrottle_spacing {α : Type} (delay : ℤ) :
    ∀ (ts : List (ℤ × α)) (s : ThrottleState α),
    (∀ t, s.timeoutId = some t → t = s.lastCall + delay) →
    List.Pairwise (fun p q : ℤ × α => p.1 ≤ q.1) ts →
    (∀ p ∈ ts, s.lastCall ≤ p.1) →
    List.Chain' (fun e1 e2 : ℤ × α => delay ≤ e2.1 - e1.1)
      (runThrottle delay s ts)
    ∧ ∀ e ∈ runThrottle delay s ts, s.lastCall + delay ≤ e.1 := by
  intro ts
  induction ts with
  | nil =>
    intro s hinv _ _
    obtain ⟨lc, tid, la⟩ := s
    cases tid with
    | none => simp [runThrottle]
    | some t =>
      have ht : t = lc + delay := hinv t rfl
      cases la with
      | none => simp [runThrottle, timerFire]
      | some b =>
        have hres : runThrottle delay (⟨lc, some t, some b⟩ : ThrottleState α)
            [] = [(t, b)] := by
          simp only [runThrottle, timerFire]
          rfl
        rw [hres]
        refine ⟨List.chain'_singleton _, ?_⟩
        intro e he
        rw [List.mem_singleton] at he
        subst he
        show lc + delay ≤ t
        omega
  | cons p rest ih =>
    intro s hinv hmono hfirst
    obtain ⟨now, a⟩ := p
    obtain ⟨lc, tid, la⟩ := s
    have hpair := List.pairwise_cons.mp hmono
    have hmono_rest : List.Pairwise (fun p q : ℤ × α => p.1 ≤ q.1) rest :=
      hpair.2
    have hnow_le : ∀ q ∈ rest, now ≤ q.1 := fun q hq => hpair.1 q hq
    have hlc_now : lc ≤ now := hfirst (now, a) (List.mem_cons_self _ _)
    cases tid with
    | some t =>
      have ht : t = lc + delay := hinv t rfl
      by_cases hTle : t ≤ now
      · by_cases himm : delay ≤ now - t
        · -- timer fires at t, then the call executes immediately at now
          have hrec := ih ⟨now, none, some a⟩ (fun u hu => Option.noConfusion hu)
            hmono_rest (fun q hq => hnow_le q hq)
          have hb2 : ∀ e ∈ runThrottle delay
              (⟨now, none, some a⟩ : ThrottleState α) rest,
              now + delay ≤ e.1 := hrec.2
          cases la with
          | none =>
            have hres : runThrottle delay
                (⟨lc, some t, none⟩ : ThrottleState α) ((now, a) :: rest)
                = (now, a) :: runThrottle delay ⟨now, none, some a⟩ rest := by
              simp only [runThrottle, trigger, timerFire, if_pos hTle,
                if_pos himm]
              rfl
            rw [hres]
            refine ⟨chain'_cons_of_forall _ ?_ hrec.1, ?_⟩
            · intro e he
              have hb := hb2 e he
              show delay ≤ e.1 - now
              omega
            · intro e he
              rcases List.mem_cons.mp he with rfl | he
              · show lc + delay ≤ now
                omega
              · have hb := hb2 e he
                show lc + delay ≤ e.1
                omega
          | some b =>
            have hres : runThrottle delay
                (⟨lc, some t, some b⟩ : ThrottleState α) ((now, a) :: rest)
                = (t, b) :: (now, a) ::
                  runThrottle delay ⟨now, none, some a⟩ rest := by
              simp only [runThrottle, trigger, timerFire, if_pos hTle,
                if_pos himm]
              rfl
            rw [hres]
            refine ⟨?_, ?_⟩
            · refine chain'_cons_of_forall _ ?_
                (chain'_cons_of_forall _ ?_ hrec.1)
              · intro e he
                rcases List.mem_cons.mp he with rfl | he
                · show delay ≤ now - t
                  omega
                · have hb := hb2 e he
                  show delay ≤ e.1 - t
                  omega
              · intro e he
                have hb := hb2 e he
                show delay ≤ e.1 - now
                omega
            · intro e he
              rcases List.mem_cons.mp he with rfl | he
              · show lc + delay ≤ t
                omega
              rcases List.mem_cons.mp he with rfl | he
              · show lc + delay ≤ now
                omega
              · have hb := hb2 e he
                show lc + delay ≤ e.1
                omega
        · -- timer fires at t, the call is deferred to t + delay
          have hrec := ih ⟨t, some (now + (delay - (now - t))), some a⟩
            (fun u hu => by
              injection hu with h
              show u = t + delay
              omega)
            hmono_rest (fun q hq => le_trans hTle (hnow_le q hq))
          have hb2 : ∀ e ∈ runThrottle delay
              (⟨t, some (now + (delay - (now - t))), some a⟩ :
                ThrottleState α) rest,
              t + delay ≤ e.1 := hrec.2
          cases la with
          | none =>
            have hres : runThrottle delay
                (⟨lc, some t, none⟩ : ThrottleState α) ((now, a) :: rest)
                = runThrottle delay
                  ⟨t, some (now + (delay - (now - t))), some a⟩ rest := by
              simp only [runThrottle, trigger, timerFire, if_pos hTle,
                if_neg himm]
              rfl
            rw [hres]
            refine ⟨hrec.1, ?_⟩
            intro e he
            have hb := hb2 e he
            show lc + delay ≤ e.1
            omega
          | some b =>
            have hres : runThrottle delay
                (⟨lc, some t, some b⟩ : ThrottleState α) ((now, a) :: rest)
                = (t, b) :: runThrottle delay
                  ⟨t, some (now + (delay - (now - t))), some a⟩ rest := by
              simp only [runThrottle, trigger, timerFire, if_pos hTle,
                if_neg himm]
              rfl
            rw [hres]
            refine ⟨chain'_cons_of_forall _ ?_ hrec.1, ?_⟩
            · intro e he
              have hb := hb2 e he
              show delay ≤ e.1 - t
              omega
            · intro e he
              rcases List.mem_cons.mp he with rfl | he
              · show lc + delay ≤ t
                omega
              · have hb := hb2 e he
                show lc + delay ≤ e.1
                omega
      · -- pending timer not yet due: the call only updates lastArgs
        have hnl : ¬ (delay ≤ now - lc) := by omega
        have hrec := ih ⟨lc, some t, some a⟩
          (fun u hu => by
            injection hu with h
            show u = lc + delay
            omega)
          hmono_rest (fun q hq => hfirst q (List.mem_cons_of_mem _ hq))
        have hres : runThrottle delay
            (⟨lc, some t, la⟩ : ThrottleState α) ((now, a) :: rest)
            = runThrottle delay ⟨lc, some t, some a⟩ rest := by
          simp only [runThrottle, trigger, timerFire, if_neg hTle, if_neg hnl]
          rfl
        rw [hres]
        exact ⟨hrec.1, fun e he => hrec.2 e he⟩
    | none =>
      by_cases himm : delay ≤ now - lc
      · -- no timer pending, the call executes immediately
        have hrec := ih ⟨now, none, some a⟩ (fun u hu => Option.noConfusion hu)
          hmono_rest (fun q hq => hnow_le q hq)
        have hb2 : ∀ e ∈ runThrottle delay
            (⟨now, none, some a⟩ : ThrottleState α) rest,
            now + delay ≤ e.1 := hrec.2
        have hres : runThrottle delay
            (⟨lc, none, la⟩ : ThrottleState α) ((now, a) :: rest)
            = (now, a) :: runThrottle delay ⟨now, none, some a⟩ rest := by
          simp only [runThrottle, trigger, if_pos himm]
          rfl
        rw [hres]
        refine ⟨chain'_cons_of_forall _ ?_ hrec.1, ?_⟩
        · intro e he
          have hb := hb2 e he
          show delay ≤ e.1 - now
          omega
        · intro e he
          rcases List.mem_cons.mp he with rfl | he
          · show lc + delay ≤ now
            omega
          · have hb := hb2 e he
            show lc + delay ≤ e.1
            omega
      · -- no timer pending, the call schedules one at lastCall + delay
        have hrec := ih ⟨lc, some (now + (delay - (now - lc))), some a⟩
          (fun u hu => by
            injection hu with h
            show u = lc + delay
            omega)
          hmono_rest (fun q hq => hfirst q (List.mem_cons_of_mem _ hq))
        have hres : runThrottle delay
            (⟨lc, none, la⟩ : ThrottleState α) ((now, a) :: rest)
            = runThrottle delay
              ⟨lc, some (now + (delay - (now - lc))), some a⟩ rest := by
          simp only [runThrottle, trigger, if_neg himm]
          rfl
        rw [hres]
        exact ⟨hrec.1, fun e he => hrec.2 e he⟩

/-- C5: (i) a call arriving at least one interval after the last execution
runs immediately with its own arguments; (ii) a burst of calls starting and
staying within one interval of the last execution produces exactly one
deferred execution, at the interval boundary lastCall + delay, carrying the
arguments of the most recent call (each later call supersedes the scheduled
data, no second timer is created); (iii) under a nondecreasing trigger
timeline from a consistent state, consecutive executions are never closer
than one interval. -/
theorem throttle_trailing_edge_spec (α : Type) (delay : ℤ) :
    (∀ (s : ThrottleState α) (now : ℤ) (a : α), delay ≤ now - s.lastCall →
      (trigger delay now a s).2 = some (now, a)
      ∧ (trigger delay now a s).1.lastCall = now)
    ∧ (∀ (T0 : ℤ) (la : Option α) (t0 : ℤ) (a0 : α) (rest : List (ℤ × α)),
        (∀ p ∈ (t0, a0) :: rest, p.1 - T0 < delay) →
        runThrottle delay ⟨T0, none, la⟩ ((t0, a0) :: rest)
          = [(T0 + delay, (rest.map Prod.snd).getLastD a0)])
    ∧ (∀ (s : ThrottleState α) (ts : List (ℤ × α)),
        (∀ t, s.timeoutId = some t → t = s.lastCall + delay) →
        List.Pairwise (fun p q : ℤ × α => p.1 ≤ q.1) ts →
        (∀ p ∈ ts, s.lastCall ≤ p.1) →
        List.Chain' (fun e1 e2 : ℤ × α => delay ≤ e2.1 - e1.1)
          (runThrottle delay s ts)) :=
  ⟨fun s now a h => trigger_immediate delay now a s h,
   fun T0 la t0 a0 rest h => runThrottle_trailing delay T0 la t0 a0 rest h,
   fun s ts hinv hmono hfirst =>
     (runThrottle_spacing delay ts s hinv hmono hfirst).1⟩

/-- Witness for throttle_trailing_edge_spec: delay 50, last execution at 0,
three calls at 10, 20, 30 ms with data 1, 2, 3 — exactly one execution, at
t = 50, with the last data 3. -/
theorem throttle_trailing_edge_spec_witness :
    runThrottle 50 (⟨0, none, none⟩ : ThrottleState ℕ)
      [(10, 1), (20, 2), (30, 3)] = [(50, 3)] := by
  have h := (throttle_trailing_edge_spec ℕ 50).2.1 0 none 10 1 [(20, 2), (30, 3)]
    (by
      intro p hp
      rcases List.mem_cons.mp hp with rfl | hp
      · norm_num
      rcases List.mem_cons.mp hp with rfl | hp
      · norm_num
      rcases List.mem_cons.mp hp with rfl | hp
      · norm_num
      · simp at hp)
  simpa using h

/-! ## Disposal and the pending throttled recomputation (C6)

LidarSensor.dispose disposes geometries and materials and removes the point
cloud from the world, and BaseSensor.dispose removes the group and disposes
its children.  Neither clears the throttle timeout (no clearTimeout anywhere
in the sensor code) and neither sets a liveness flag read by
generatePointCloud, whose only guard is config.enabled/showPointCloud —
untouched by dispose. -/

structure LidarSensorRuntime where
  throttle : ThrottleState Unit
  disposed : Bool
deriving DecidableEq

/-- Embedding of LidarSensor.dispose / BaseSensor.dispose: resources are
released (disposed set), while the throttle state — including a pending
timeout — is left untouched and no flag consulted by the deferred callback
is set. -/
def lidarDispose (s : LidarSensorRuntime) : LidarSensorRuntime :=
  { s with disposed := true }

/-- C6: a throttled point-cloud recomputation scheduled at t = 10 (timer due
at t = 50) survives dispose — the pending timeout is still set on the
disposed sensor, the deferred callback still fires at t = 50 after disposal,
and a generatePointCloud run on the disposed sensor's unchanged config still
writes a fresh sample into the point-cloud buffer. -/
theorem lidar_dispose_stale_timer_fires :
    (lidarDispose ⟨(trigger 50 10 () ⟨0, none, none⟩).1, false⟩).disposed
        = true
    ∧ (lidarDispose
        ⟨(trigger 50 10 () ⟨0, none, none⟩).1, false⟩).throttle.timeoutId
        = some 50
    ∧ runThrottle 50
        (lidarDispose ⟨(trigger 50 10 () ⟨0, none, none⟩).1, false⟩).throttle
        [] = [(50, ())]
    ∧ generatePointCloudBuffer distL1 cfgEnabled ⟨0, 0, 0⟩ [nodeNear]
        (fun _ => [⟨3, 0, 0⟩]) [] = [⟨3, 0, 0⟩] := by
  refine ⟨rfl, by decide, by decide, ?_⟩
  have hmem : (meshNear, (3 : ℚ)) ∈
      collectMeshesWithDistance distL1 ⟨0, 0, 0⟩ 10 [nodeNear] :=
    (mem_collectMeshesWithDistance_iff distL1 ⟨0, 0, 0⟩ 10 [nodeNear]
      meshNear 3).mpr
      ⟨nodeNear, by simp, by decide, by simp [nodeNear],
        by norm_num [distL1, meshNear], by norm_num [meshNear]⟩
  have hne : collectMeshesWithDistance distL1 ⟨0, 0, 0⟩ 10 [nodeNear] ≠ [] :=
    List.ne_nil_of_mem hmem
  have hemp : ¬ ((collectMeshesWithDistance distL1 ⟨0, 0, 0⟩ 10
      [nodeNear]).isEmpty = true) :=
    fun h => hne (List.isEmpty_iff.mp h)
  rw [generatePointCloudBuffer]
  simp only [cfgEnabled, Bool.not_true, Bool.or_self, Bool.false_or,
    if_false]
  rw [if_neg hemp]
  simp

/-! ## Pose updates and scan-volume geometry (C9)

BaseSensor.updatePose sets the group transform from the new pose and then
calls updateVisualization.  LidarSensor.updateVisualization disposes the old
scan-volume geometry and creates a new one from the current config on EVERY
call — its comment says the recreation happens "if FOV or range changed",
but no such change check exists in the code.  The geometry content is a
function of the parameters below; volumeGeometryAllocs counts geometry
allocations (each createFullRotationGeometry / createSectorGeometry call),
modelling the dispose-and-new object identity. -/

structure SensorPose where
  px : ℚ
  py : ℚ
  pz : ℚ
  roll : ℚ
  pitch : ℚ
  yaw : ℚ
deriving DecidableEq

/-- Parameters the scan-volume geometry is built from (the hFov ≥ 360 branch
choice, the angular extents and the range bounds are all functions of
these). -/
structure VolumeGeometryParams where
  hFov : ℚ
  vFov : ℚ
  minRange : ℚ
  maxRange : ℚ
deriving DecidableEq

def volumeGeometryParamsOf (cfg : LidarConfig) : VolumeGeometryParams :=
  { hFov := cfg.hFov
    vFov := cfg.vFov
    minRange := cfg.minRange
    maxRange := cfg.maxRange }

structure LidarVisState where
  config : LidarConfig
  pose : SensorPose
  volumeGeometryParams : VolumeGeometryParams
  volumeGeometryAllocs : ℕ
deriving DecidableEq

/-- Embedding of LidarSensor.updateVisualization: the old volume geometry is
disposed and a new one is created from the current config unconditionally
(one more allocation), whether or not any parameter changed. -/
def updateVisualization (s : LidarVisState) : LidarVisState :=
  { s with
    volumeGeometryParams := volumeGeometryParamsOf s.config
    volumeGeometryAllocs := s.volumeGeometryAllocs + 1 }

/-- Embedding of BaseSensor.updatePose: store the new pose (group transform
and config), then call updateVisualization. -/
def updatePose (p : SensorPose) (s : LidarVisState) : LidarVisState :=
  updateVisualization { s with pose := p }

/-- Concrete sensor visualization state for the C9 failing input. -/
def visStateEx : LidarVisState :=
  { config := cfgEnabled
    pose := ⟨0, 0, 0, 0, 0, 0⟩
    volumeGeometryParams := volumeGeometryParamsOf cfgEnabled
    volumeGeometryAllocs := 0 }

/-- C9: every pose update rebuilds the scan-volume geometry.  In general one
allocation is added per updatePose call; at the concrete failing input — a
pure position change with configuration untouched — the rebuilt geometry has
exactly the parameters it already had (the rebuild is redundant), yet the
allocation count grows, contradicting the claim that pose-only updates do
not regenerate geometry. -/
theorem pose_update_rebuilds_volume_geometry :
    (∀ (s : LidarVisState) (p : SensorPose),
      (updatePose p s).volumeGeometryAllocs = s.volumeGeometryAllocs + 1
      ∧ (updatePose p s).config = s.config)
    ∧ (updatePose ⟨1, 0, 0, 0, 0, 0⟩ visStateEx).volumeGeometryAllocs
        = visStateEx.volumeGeometryAllocs + 1
    ∧ (updatePose ⟨1, 0, 0, 0, 0, 0⟩ visStateEx).volumeGeometryParams
        = visStateEx.volumeGeometryParams
    ∧ (updatePose ⟨1, 0, 0, 0, 0, 0⟩ visStateEx).pose ≠ visStateEx.pose :=
  ⟨fun s p => ⟨rfl, rfl⟩, rfl, rfl, by
    intro h
    have := congrArg SensorPose.px h
    norm_num [updatePose, updateVisualization, visStateEx] at this⟩

/-! ## App.updateSensor (C10)

AppState (src/types/state.ts, as read by App.ts): scenario, sensors,
selectedSensorId, settings.  updateSensor finds the sensor by id with
findIndex; on a miss it logs a warning (modelled as the Bool true in the
result) and returns with the state untouched; on a hit it replaces exactly
that entry with the spread-merge of the old config and the changes.  The
merge models the object spread over the listed fields. -/

structure SensorConfig where
  id : String
  name : String
  enabled : Bool
  channels : ℕ
  hFov : ℚ
  vFov : ℚ
  angularResH : ℚ
  minRange : ℚ
  maxRange : ℚ
deriving DecidableEq, Inhabited

/-- Partial<SensorConfig>: per-field optional overrides. -/
structure PartialSensorConfig where
  id : Option String
  name : Option String
  enabled : Option Bool
  channels : Option ℕ
  hFov : Option ℚ
  vFov : Option ℚ
  angularResH : Option ℚ
  minRange : Option ℚ
  maxRange : Option ℚ
deriving DecidableEq

/-- Embedding of the object spread { ...oldConfig, ...changes }. -/
def mergeConfig (c : SensorConfig) (p : PartialSensorConfig) : SensorConfig :=
  { id := p.id.getD c.id
    name := p.name.getD c.name
    enabled := p.enabled.getD c.enabled
    channels := p.channels.getD c.channels
    hFov := p.hFov.getD c.hFov
    vFov := p.vFov.getD c.vFov
    angularResH := p.angularResH.getD c.angularResH
    minRange := p.minRange.getD c.minRange
    maxRange := p.maxRange.getD c.maxRange }

structure AppSettings where
  coordinateSystem : String
  pointSize : ℚ
deriving DecidableEq

structure AppState where
  scenario : String
  sensors : List SensorConfig
  selectedSensorId : Option String
  settings : AppSettings
deriving DecidableEq

/-- Embedding of App.updateSensor.  The Bool of the result records whether
the unknown-id warning path was taken. -/
def updateSensor (id : String) (changes : PartialSensorConfig)
    (st : AppState) : AppState × Bool :=
  match st.sensors.findIdx? (fun s => s.id = id) with
  | none => (st, true)
  | some sensorIndex =>
      ({ st with
          sensors := st.sensors.set sensorIndex
            (mergeConfig (st.sensors.getD sensorIndex default) changes) },
       false)

/-- C10: for an id that matches no sensor, updateSensor leaves the whole
state unchanged and takes only the warning path; for an id found at index i,
it replaces exactly the entry at i by the merge of its old config with the
changes — the list length, every other entry, the selected-sensor id, the
scenario and the settings are all unchanged, and no warning is emitted. -/
theorem app_updateSensor_frame (id : String) (changes : PartialSensorConfig)
    (st : AppState) :
    ((∀ s ∈ st.sensors, s.id ≠ id) → updateSensor id changes st = (st, true))
    ∧ ∀ i, st.sensors.findIdx? (fun s => s.id = id) = some i →
        (updateSensor id changes st).1.sensors.length = st.sensors.length
        ∧ (∀ j, j ≠ i →
            (updateSensor id changes st).1.sensors[j]? = st.sensors[j]?)
        ∧ (∀ c, st.sensors[i]? = some c →
            (updateSensor id changes st).1.sensors[i]?
              = some (mergeConfig c changes))
        ∧ (updateSensor id changes st).1.selectedSensorId
            = st.selectedSensorId
        ∧ (updateSensor id changes st).1.scenario = st.scenario
        ∧ (updateSensor id changes st).1.settings = st.settings
        ∧ (updateSensor id changes st).2 = false := by
  constructor
  · intro hall
    have hnone : st.sensors.findIdx? (fun s => decide (s.id = id)) = none := by
      rw [List.findIdx?_eq_none_iff]
      intro s hs
      simp [hall s hs]
    unfold updateSensor
    rw [hnone]
  · intro i hfind
    have hres : updateSensor id changes st
        = ({ st with
            sensors := st.sensors.set i
              (mergeConfig (st.sensors.getD i default) changes) }, false) := by
      unfold updateSensor
      rw [hfind]
    rw [hres]
    refine ⟨List.length_set st.sensors i _, ?_, ?_, rfl, rfl, rfl, rfl⟩
    · intro j hj
      exact List.getElem?_set_ne (Ne.symm hj)
    · intro c hc
      obtain ⟨hlt, hval⟩ := List.getElem?_eq_some_iff.mp hc
      have hgd : st.sensors.getD i default = c := by
        rw [List.getD_eq_getElem?_getD, hc]
        rfl
      rw [hgd]
      exact List.getElem?_set_self hlt

/-- Concrete two-sensor state for the C10 witness. -/
def stEx : AppState :=
  { scenario := "household-large"
    sensors :=
      [ { id := "a", name := "front", enabled := true, channels := 16,
          hFov := 360, vFov := 30, angularResH := 1, minRange := 1,
          maxRange := 100 },
        { id := "b", name := "rear", enabled := true, channels := 32,
          hFov := 120, vFov := 40, angularResH := 1, minRange := 1,
          maxRange := 50 } ]
    selectedSensorId := some "a"
    settings := { coordinateSystem := "ros", pointSize := 5 } }

/-- Changes touching only hFov. -/
def changesEx : PartialSensorConfig :=
  { id := none, name := none, enabled := none, channels := none,
    hFov := some 180, vFov := none, angularResH := none, minRange := none,
    maxRange := none }

/-- Witness for app_updateSensor_frame: updating sensor b of the two-sensor
state leaves the length, the other entry, the selection, the scenario and
the settings unchanged. -/
theorem app_updateSensor_frame_witness :
    (updateSensor "b" changesEx stEx).1.sensors.length = 2
    ∧ (updateSensor "b" changesEx stEx).1.sensors[0]? = stEx.sensors[0]?
    ∧ (updateSensor "b" changesEx stEx).1.selectedSensorId = some "a"
    ∧ (updateSensor "b" changesEx stEx).2 = false := by
  have hfind : stEx.sensors.findIdx? (fun s => s.id = "b") = some 1 := by
    rfl
  have h := (app_updateSensor_frame "b" changesEx stEx).2 1 hfind
  exact ⟨h.1, h.2.1 0 (by decide), h.2.2.2.1, h.2.2.2.2.2.2⟩
